import Mathlib

/-!
Verification development for the gofe remote file manager.

The development shallowly embeds the two source files of the repository:
the LocalFileExplorer backend (package fe) and the web front end
(main.go: the Contexter session binder and the apiHandler action
dispatcher).  Filesystem effects are modelled by an explicit state type
FS together with a trace of the OS calls each operation performs; the
session binder is modelled as a state machine over an explicit cache.
-/

namespace Gofe

/-! ## Path model: Go filepath.Clean / filepath.Join / filepath.Dir -/

/-- Splits a character list at every occurrence of the separator. -/
def splitOnCharAux (c : Char) : List Char → List Char → List (List Char)
  | [], acc => [acc.reverse]
  | x :: xs, acc =>
    if x = c then acc.reverse :: splitOnCharAux c xs []
    else splitOnCharAux c xs (x :: acc)

/-- String.splitOn restricted to a one-character separator, implemented
by structural recursion so that it evaluates inside the kernel. -/
def splitOnStr (c : Char) (s : String) : List String :=
  (splitOnCharAux c s.toList []).map String.mk

/-- String.startsWith, implemented on character lists so that it
evaluates inside the kernel. -/
def strStartsWith (s pre : String) : Bool := pre.toList.isPrefixOf s.toList

/-- One step of the element stack used by Go path Clean: skips empty and
dot elements, and resolves dot-dot against the stack. -/
def cleanStep (rooted : Bool) (acc : List String) (p : String) : List String :=
  if p = "" ∨ p = "." then acc
  else if p = ".." then
    match acc with
    | [] => if rooted then [] else [".."]
    | a :: rest => if a = ".." then p :: acc else rest
  else p :: acc

/-- Go filepath.Clean for slash-separated paths: collapses repeated
separators, removes dot elements and resolves dot-dot elements. -/
def goClean (path : String) : String :=
  if path = "" then "." else
  let rooted := strStartsWith path "/"
  let stack := (splitOnStr '/' path).foldl (cleanStep rooted) []
  let body := String.intercalate "/" stack.reverse
  if rooted then "/" ++ body
  else if body = "" then "." else body

/-- Go filepath.Join: drops empty elements, joins the rest with a slash
and cleans the result; all empty yields the empty string. -/
def goJoin (elems : List String) : String :=
  let ne := elems.filter (fun e => !(e == ""))
  if ne.isEmpty then "" else goClean (String.intercalate "/" ne)

/-- Two-element filepath.Join, as used by most explorer operations. -/
def goJoin2 (a b : String) : String := goJoin [a, b]

/-- Three-element filepath.Join, as used by LocalFileExplorer.Copy. -/
def goJoin3 (a b c : String) : String := goJoin [a, b, c]

/-- Go filepath.Dir: the cleaned path up to and including the final
separator, or dot when the path holds no separator. -/
def goDir (path : String) : String :=
  let parts := splitOnStr '/' path
  if parts.length ≤ 1 then "."
  else goClean (String.intercalate "/" parts.dropLast ++ "/")

/-! ## Filesystem model

The OS filesystem is an external collaborator of the repository; it is
modelled as a finite map from (cleaned) path strings to nodes, plus a
set of paths on which permission-changing or removing calls fail with a
permission error, standing for EPERM conditions the OS can report.  The
content of a file is held as its bytes read as Latin-1 characters, and
the stat size is a separate field, as stat is what the code consults. -/

structure FNode where
  isDir : Bool
  mode : Nat
  size : Nat
  content : String
  mtime : String
deriving DecidableEq

structure FS where
  nodes : List (String × FNode)
  denied : List String
deriving DecidableEq

def FS.find (fs : FS) (p : String) : Option FNode :=
  (fs.nodes.find? (fun e => e.1 == p)).map (fun e => e.2)

def FS.setMode (fs : FS) (p : String) (m : Nat) : FS :=
  { fs with nodes := fs.nodes.map (fun e => if e.1 == p then (e.1, { e.2 with mode := m }) else e) }

def FS.insert (fs : FS) (p : String) (n : FNode) : FS :=
  { fs with nodes := (p, n) :: fs.nodes.filter (fun e => !(e.1 == p)) }

/-- Whether key k lies in the subtree rooted at p (p itself included). -/
def underPath (k p : String) : Bool := k == p || strStartsWith k (p ++ "/")

def FS.removeSubtree (fs : FS) (p : String) : FS :=
  { fs with nodes := fs.nodes.filter (fun e => !(underPath e.1 p)) }

/-- Whether some permission-denied path lies in the subtree at p. -/
def FS.deniedUnder (fs : FS) (p : String) : Bool :=
  fs.denied.any (fun d => underPath d p)

/-- Whether the parent directory of p exists, so that creating an entry
at p can succeed. -/
def parentOk (fs : FS) (p : String) : Bool :=
  let d := goDir p
  d == "/" || d == "." ||
    (match fs.find d with
     | some n => n.isDir
     | none => false)

/-! ## OS call layer

Each primitive from the Go os package used by the explorer is modelled
as a state transformer that also reports the call it made, with the
exact path arguments the source passes, so that theorems can speak
about which paths reach the OS. -/

inductive OsCall where
  | oStat (p : String)
  | oMkdir (p : String)
  | oRename (src dst : String)
  | oRemoveAll (p : String)
  | oChmod (p : String)
  | oCreate (p : String)
  | oOpen (p : String)
deriving DecidableEq

/-- Result of an effectful operation: outcome, new filesystem, trace. -/
abbrev FSRes (α : Type) := Except String α × FS × List OsCall

/-- Model of os.Mkdir: fails when the entry exists or the parent is
missing, otherwise creates a directory node with the given mode. -/
def osMkdir (fs : FS) (p : String) (mode : Nat) : FSRes Unit :=
  match fs.find p with
  | some _ => (.error "file exists", fs, [.oMkdir p])
  | none =>
    if parentOk fs p then
      (.ok (), fs.insert p ⟨true, mode, 0, "", ""⟩, [.oMkdir p])
    else (.error "no such file or directory", fs, [.oMkdir p])

/-- Re-keys the subtree at src to live at dst. -/
def renameKeys (nodes : List (String × FNode)) (src dst : String) : List (String × FNode) :=
  nodes.map (fun e =>
    if e.1 == src then (dst, e.2)
    else if strStartsWith e.1 (src ++ "/") then (dst ++ e.1.drop src.length, e.2)
    else e)

/-- Model of os.Rename: fails when the source is missing, when the
destination is an existing directory, or when the destination parent is
missing; an existing destination file is overwritten. -/
def osRename (fs : FS) (src dst : String) : FSRes Unit :=
  match fs.find src with
  | none => (.error "no such file or directory", fs, [.oRename src dst])
  | some _ =>
    match fs.find dst with
    | some d =>
      if d.isDir then (.error "file exists", fs, [.oRename src dst])
      else (.ok (),
        { fs with nodes := renameKeys (fs.nodes.filter (fun e => !(e.1 == dst))) src dst },
        [.oRename src dst])
    | none =>
      if parentOk fs dst then
        (.ok (), { fs with nodes := renameKeys fs.nodes src dst }, [.oRename src dst])
      else (.error "no such file or directory", fs, [.oRename src dst])

/-- Model of os.RemoveAll: removing a missing path is not an error; a
permission-denied path inside the subtree makes the call fail. -/
def osRemoveAll (fs : FS) (p : String) : FSRes Unit :=
  if fs.deniedUnder p then (.error "permission denied", fs, [.oRemoveAll p])
  else (.ok (), fs.removeSubtree p, [.oRemoveAll p])

/-- Model of os.Chmod: fails on a missing or permission-denied path,
otherwise sets the mode bits. -/
def osChmod (fs : FS) (p : String) (m : Nat) : FSRes Unit :=
  match fs.find p with
  | none => (.error "no such file or directory", fs, [.oChmod p])
  | some _ =>
    if fs.denied.contains p then (.error "operation not permitted", fs, [.oChmod p])
    else (.ok (), fs.setMode p m, [.oChmod p])

/-! ## strconv.Atoi and integer helpers -/

/-- Accumulates decimal digits; any non-digit character fails. -/
def digitsVal (cs : List Char) : Option Nat :=
  cs.foldl (fun acc c =>
    match acc with
    | none => none
    | some n => if c.isDigit then some (n * 10 + (c.toNat - 48)) else none) (some 0)

/-- Model of strconv.Atoi: an optional sign followed by at least one
decimal digit; anything else is a syntax error.  The Go int range check
is not modelled, which is exact on all inputs small enough to matter
here. -/
def goAtoi (s : String) : Except String Int :=
  let cs := s.toList
  let sd : Bool × List Char :=
    match cs with
    | '-' :: rest => (true, rest)
    | '+' :: rest => (false, rest)
    | _ => (false, cs)
  if sd.2.isEmpty then .error "invalid syntax"
  else
    match digitsVal sd.2 with
    | none => .error "invalid syntax"
    | some n => .ok (if sd.1 then -(n : Int) else (n : Int))

/-- Conversion of a Go int to the uint32 underlying os.FileMode. -/
def toUint32 (i : Int) : Nat := (i % (4294967296 : Int)).toNat

/-! ## Text helpers: bufio scanning and mode rendering -/

/-- bufio.ScanLines drops one trailing carriage return per line. -/
def stripCR (s : String) : String :=
  if s.toList.getLast? = some '\r' then s.dropRight 1 else s

/-- The line scan of GetContent: split the decoded bytes into lines the
way bufio.Scanner with ScanLines does, then join them with a newline.
The Latin-1 decode maps byte b to code point b, so on content already
held as characters it is the identity. -/
def scanJoin (s : String) : String :=
  let parts := splitOnStr '\n' s
  let parts := if parts.getLast? = some "" then parts.dropLast else parts
  String.intercalate "\n" (parts.map stripCR)

/-- One permission triple of a rendered mode string. -/
def rwxTriple (m : Nat) : String :=
  (if m / 4 % 2 = 1 then "r" else "-") ++
  (if m / 2 % 2 = 1 then "w" else "-") ++
  (if m % 2 = 1 then "x" else "-")

/-- Rendering of os.FileMode.String restricted to the directory bit and
the nine permission bits, which is all the model stores. -/
def modeString (isDir : Bool) (m : Nat) : String :=
  (if isDir then "d" else "-") ++ rwxTriple (m / 64) ++ rwxTriple (m / 8) ++ rwxTriple m

/-- Lexicographic comparison of character lists by code point. -/
def charListLt : List Char → List Char → Bool
  | [], [] => false
  | [], _ :: _ => true
  | _ :: _, [] => false
  | a :: as, b :: bs =>
    if a.toNat < b.toNat then true
    else if a.toNat = b.toNat then charListLt as bs
    else false

def strLtB (a b : String) : Bool := charListLt a.toList b.toList

def insertStr (x : String) : List String → List String
  | [] => [x]
  | y :: ys => if strLtB x y || x == y then x :: y :: ys else y :: insertStr x ys

/-- Insertion sort on strings, modelling the sorted order in which Go
readdir helpers report directory entries. -/
def sortStrs (l : List String) : List String := l.foldr insertStr []

/-- The names of the direct children of directory p, sorted, as
ioutil.ReadDir and filepath.Walk enumerate them. -/
def childNames (fs : FS) (p : String) : List String :=
  sortStrs (fs.nodes.filterMap (fun e =>
    if strStartsWith e.1 (p ++ "/") then
      let rest := e.1.drop (p.length + 1)
      if rest ≠ "" ∧ ¬ (rest.toList.contains '/') then some rest else none
    else none))

/-! ## LocalFileExplorer (src/unnamed/part_000)

The explorer holds only its RelativePath; every operation is the direct
translation of the corresponding Go method, threading the filesystem
state and recording the OS calls made. -/

structure LocalFileExplorer where
  RelativePath : String
deriving DecidableEq

def LocalFileExplorer.Init (_fe : LocalFileExplorer) : Except String Unit := .ok ()

def LocalFileExplorer.Mkdir (fe : LocalFileExplorer) (path : String) (fs : FS) : FSRes Unit :=
  osMkdir fs (goJoin2 fe.RelativePath path) 448

structure ListDirEntry where
  Name : String
  Rights : String
  Size : String
  Date : String
  -- the Go field is named Type, a keyword in Lean
  Typ : String
deriving DecidableEq

def LocalFileExplorer.ListDir (fe : LocalFileExplorer) (path : String) (fs : FS) :
    Except String (List ListDirEntry) × FS × List OsCall :=
  let p := goJoin2 fe.RelativePath path
  match fs.find p with
  | none => (.error "no such file or directory", fs, [.oStat p])
  | some n =>
    if n.isDir then
      let es := (childNames fs p).map (fun name =>
        match fs.find (p ++ "/" ++ name) with
        | some c =>
          { Name := name, Rights := modeString c.isDir c.mode, Size := toString c.size,
            Date := c.mtime, Typ := if c.isDir then "dir" else "file" }
        | none => { Name := name, Rights := "", Size := "", Date := "", Typ := "" })
      (.ok es, fs, [.oStat p])
    else (.error "not a directory", fs, [.oStat p])

def LocalFileExplorer.Rename (fe : LocalFileExplorer) (path newPath : String) (fs : FS) :
    FSRes Unit :=
  osRename fs (goJoin2 fe.RelativePath path) (goJoin2 fe.RelativePath newPath)

/-- Loop body of Move: the Go loop overwrites err on every iteration. -/
def moveStep (fe : LocalFileExplorer) (newPath : String) (acc : FSRes Unit) (target : String) :
    FSRes Unit :=
  ((fe.Rename target newPath acc.2.1).1, (fe.Rename target newPath acc.2.1).2.1,
   acc.2.2 ++ (fe.Rename target newPath acc.2.1).2.2)

def LocalFileExplorer.Move (fe : LocalFileExplorer) (path : List String) (newPath : String)
    (fs : FS) : FSRes Unit :=
  path.foldl (moveStep fe newPath) (.ok (), fs, [])

/-- Body of a successful open in CopyFile: io.Copy into the created
file.  The source chmod at the end of the Go function runs only when
os.Stat fails, which cannot happen right after a successful open, so
the destination keeps the default create mode. -/
def copyBody (fs : FS) (sn : FNode) (source dest : String) : FSRes Unit :=
  if sn.isDir then
    (.error "is a directory", fs.insert dest ⟨false, 438, 0, "", ""⟩,
     [.oOpen source, .oCreate dest])
  else
    (.ok (), fs.insert dest ⟨false, 438, sn.size, sn.content, ""⟩,
     [.oOpen source, .oCreate dest])

/-- Model of the package-level CopyFile helper. -/
def CopyFile (fs : FS) (source dest : String) : FSRes Unit :=
  match fs.find source with
  | none => (.error "no such file or directory", fs, [.oOpen source])
  | some sn =>
    match fs.find dest with
    | some d =>
      if d.isDir then (.error "is a directory", fs, [.oOpen source, .oCreate dest])
      else copyBody fs sn source dest
    | none =>
      if parentOk fs dest then copyBody fs sn source dest
      else (.error "no such file or directory", fs, [.oOpen source, .oCreate dest])

/-- Loop body of Copy: err is overwritten on every iteration and every
target is copied to the same joined destination file. -/
def copyStep (fe : LocalFileExplorer) (newPath singleFilename : String) (acc : FSRes Unit)
    (target : String) : FSRes Unit :=
  ((CopyFile acc.2.1 (goJoin2 fe.RelativePath target)
      (goJoin3 fe.RelativePath newPath singleFilename)).1,
   (CopyFile acc.2.1 (goJoin2 fe.RelativePath target)
      (goJoin3 fe.RelativePath newPath singleFilename)).2.1,
   acc.2.2 ++ (CopyFile acc.2.1 (goJoin2 fe.RelativePath target)
      (goJoin3 fe.RelativePath newPath singleFilename)).2.2)

def LocalFileExplorer.Copy (fe : LocalFileExplorer) (path : List String)
    (newPath singleFilename : String) (fs : FS) : FSRes Unit :=
  path.foldl (copyStep fe newPath singleFilename) (.ok (), fs, [])

/-- Loop body of Delete: note that the target is passed to os.RemoveAll
verbatim, without joining RelativePath. -/
def deleteStep (acc : FSRes Unit) (target : String) : FSRes Unit :=
  ((osRemoveAll acc.2.1 target).1, (osRemoveAll acc.2.1 target).2.1,
   acc.2.2 ++ (osRemoveAll acc.2.1 target).2.2)

def LocalFileExplorer.Delete (_fe : LocalFileExplorer) (path : List String) (fs : FS) :
    FSRes Unit :=
  path.foldl deleteStep (.ok (), fs, [])

/-- Model of filepath.Walk specialised to the Chmod walk function: the
worklist is visited depth first, every visited path is chmodded, and
the first error aborts the whole walk, as the walk function propagates
any error it is handed.  Recursion is by fuel; each visit consumes one
unit, so nodes-plus-one fuel is exact. -/
def walkGo : Nat → FS → List String → Nat → FS × Option String × List OsCall
  | _, fs, [], _ => (fs, none, [])
  | 0, fs, _ :: _, _ => (fs, some "walk fuel exhausted", [])
  | fuel + 1, fs, p :: rest, m =>
    match fs.find p with
    | none => (fs, some "no such file or directory", [.oStat p])
    | some n =>
      match osChmod fs p m with
      | (.error e, fs1, tr) => (fs1, some e, tr)
      | (.ok _, fs1, tr) =>
        let next := if n.isDir then (childNames fs1 p).map (fun c => p ++ "/" ++ c) ++ rest
                    else rest
        match walkGo fuel fs1 next m with
        | (fs2, res, tr2) => (fs2, res, tr ++ tr2)

/-- Loop body of the non-recursive Chmod branch. -/
def chmodStep (fe : LocalFileExplorer) (m : Nat) (acc : FSRes Unit) (target : String) :
    FSRes Unit :=
  ((osChmod acc.2.1 (goJoin2 fe.RelativePath target) m).1,
   (osChmod acc.2.1 (goJoin2 fe.RelativePath target) m).2.1,
   acc.2.2 ++ (osChmod acc.2.1 (goJoin2 fe.RelativePath target) m).2.2)

/-- Model of LocalFileExplorer.Chmod.  The mode code is parsed with
strconv.Atoi, so in base ten.  In the recursive branch the return value
of filepath.Walk is discarded by the source, and the err variable still
holds the nil result of the successful Atoi, so the branch returns ok
whatever the walk did. -/
def LocalFileExplorer.Chmod (fe : LocalFileExplorer) (path : List String) (code : String)
    (recursive : Bool) (fs : FS) : FSRes Unit :=
  match goAtoi code with
  | .error e => (.error e, fs, [])
  | .ok codeInt =>
    let m := toUint32 codeInt
    if recursive then
      let r := path.foldl (fun acc target =>
        match walkGo (acc.1.nodes.length + 1) acc.1 [goJoin2 fe.RelativePath target] m with
        | (fs1, _, tr1) => (fs1, acc.2 ++ tr1)) (fs, ([] : List OsCall))
      (.ok (), r.1, r.2)
    else
      path.foldl (chmodStep fe m) (.ok (), fs, [])

def LocalFileExplorer.Close (_fe : LocalFileExplorer) : Except String Unit := .ok ()

def LocalFileExplorer.GetContent (fe : LocalFileExplorer) (item : String) (fs : FS) :
    Except String String × FS × List OsCall :=
  let realPath := goJoin2 fe.RelativePath item
  match fs.find realPath with
  | none => (.error "no such file or directory", fs, [.oStat realPath])
  | some n =>
    if n.size > 1024 * 1024 then
      (.error "file too big, not support getContent", fs, [.oStat realPath])
    else
      (.ok (scanJoin n.content), fs, [.oStat realPath, .oOpen realPath])

def LocalFileExplorer.Edit (fe : LocalFileExplorer) (item content : String) (fs : FS) :
    FSRes Unit :=
  let p := goJoin2 fe.RelativePath item
  match fs.find p with
  | some d =>
    if d.isDir then (.error "is a directory", fs, [.oCreate p])
    else (.ok (), fs.insert p ⟨false, 438, content.length, content, ""⟩, [.oCreate p])
  | none =>
    if parentOk fs p then
      (.ok (), fs.insert p ⟨false, 438, content.length, content, ""⟩, [.oCreate p])
    else (.error "no such file or directory", fs, [.oCreate p])

/-! ## Action dispatcher (main.go apiHandler)

The models package of the repository is not under src/; the request and
response record shapes below are modelled from the spec (section 3,
ActionRequest and ResponseEnvelope) and from their uses in main.go.
The dispatcher itself is the direct translation of apiHandler, settled
here against the LocalFileExplorer backend: the dispatcher consults the
capability interface only, so the action routing is backend agnostic. -/

/-- Modelled from the spec: models.GenericReq, the ActionRequest body;
field set taken from the spec and the fields main.go reads. -/
structure GenericReq where
  Action : String
  Path : String
  Item : String
  NewItemPath : String
  Items : List String
  NewPath : String
  SingleFilename : String
  PermsCode : String
  Recursive : Bool
deriving DecidableEq

/-- Modelled from the spec: the response envelope written by the
handler, either a generic success flag plus message (models.GenericResp
with its HTTP status) or a directory listing (models.ListDirResp). -/
inductive ApiResp where
  | json (status : Nat) (success : Bool) (message : String)
  | listing (status : Nat) (entries : List ListDirEntry)
deriving DecidableEq

def DEFAULT_API_ERROR_RESPONSE : ApiResp := .json 200 false "Not Supported"

/-- Model of apiHandler: the if chain over req.Action, translated
branch for branch.  An action matched by no branch writes no response,
so the result is none there. -/
def apiHandler (req : GenericReq) (s : LocalFileExplorer) (fs : FS) :
    Option ApiResp × FS × List OsCall :=
  if req.Action = "list" then
    match s.ListDir req.Path fs with
    | (.ok ls, fs', tr) => (some (.listing 200 ls), fs', tr)
    | (.error e, fs', tr) => (some (.json 400 false e), fs', tr)
  else if req.Action = "rename" then
    match s.Rename req.Item req.NewItemPath fs with
    | (.ok _, fs', tr) => (some (.json 200 true ""), fs', tr)
    | (.error e, fs', tr) => (some (.json 400 false e), fs', tr)
  else if req.Action = "move" then
    match s.Move req.Items req.NewPath fs with
    | (.ok _, fs', tr) => (some (.json 200 true ""), fs', tr)
    | (.error e, fs', tr) => (some (.json 400 false e), fs', tr)
  else if req.Action = "copy" then
    match s.Copy req.Items req.NewPath req.SingleFilename fs with
    | (.ok _, fs', tr) => (some (.json 200 true ""), fs', tr)
    | (.error e, fs', tr) => (some (.json 400 false e), fs', tr)
  else if req.Action = "remove" then
    match s.Delete req.Items fs with
    | (.ok _, fs', tr) => (some (.json 200 true ""), fs', tr)
    | (.error e, fs', tr) => (some (.json 400 false e), fs', tr)
  else if req.Action = "savefile" then (some DEFAULT_API_ERROR_RESPONSE, fs, [])
  else if req.Action = "edit" then (some DEFAULT_API_ERROR_RESPONSE, fs, [])
  else if req.Action = "createFolder" then
    match s.Mkdir req.NewPath fs with
    | (.ok _, fs', tr) => (some (.json 200 true ""), fs', tr)
    | (.error e, fs', tr) => (some (.json 400 false e), fs', tr)
  else if req.Action = "changePermissions" then
    match s.Chmod req.Items req.PermsCode req.Recursive fs with
    | (.ok _, fs', tr) => (some (.json 200 true ""), fs', tr)
    | (.error e, fs', tr) => (some (.json 400 false e), fs', tr)
  else if req.Action = "compress" then (some DEFAULT_API_ERROR_RESPONSE, fs, [])
  else if req.Action = "extract" then (some DEFAULT_API_ERROR_RESPONSE, fs, [])
  else (none, fs, [])

/-! ## Connection cache and session binder (main.go Contexter)

FileExplorer instances are opaque here: the SSH backend is not under
src/, and, modelled from the spec, NewSSHFileExplorer returns a fresh
instance owning its own connection on every call, so BackendConnect is
modelled as allocating the next unused natural number as the identity
of the new explorer.  The go-macaron cache is an external collaborator:
main.go calls only Put, Get and Delete on it and registers no eviction
callback, so entry expiry is modelled as bare removal of the entry. -/

/-- The SessionInfo record of main.go, with the explorer held as an
optional opaque identity (none models a nil FileExplorer field). -/
structure SessionInfo where
  User : String
  Password : String
  FileExplorer : Option Nat
  Uid : String
deriving DecidableEq

/-- Lookup in the connection cache. -/
def cget : List (String × SessionInfo) → String → Option SessionInfo
  | [], _ => none
  | (k', v) :: rest, k => if k' = k then some v else cget rest k

/-- cache.Delete: removes every entry stored under the key. -/
def cdel : List (String × SessionInfo) → String → List (String × SessionInfo)
  | [], _ => []
  | (k', v) :: rest, k => if k' = k then cdel rest k else (k', v) :: cdel rest k

/-- cache.Put: stores the value under the key, replacing any previous
entry; the previous entry is dropped without any cleanup. -/
def cput (c : List (String × SessionInfo)) (k : String) (v : SessionInfo) :
    List (String × SessionInfo) :=
  (k, v) :: cdel c k

/-- Server state: the connection cache, the allocator for fresh
explorer identities, and the set of explorer identities on which Close
has been invoked. -/
structure SrvState where
  cache : List (String × SessionInfo)
  nextId : Nat
  closed : List Nat
deriving DecidableEq

/-- One HTTP request as the Contexter sees it: the uid the cookie
carries, which route it hits, the login form fields, and the outcomes
of the backend connection attempts the request may make (the oracle for
the external SSH backend). -/
structure ReqM where
  cookieUid : Option String
  isLoginPost : Bool
  isLogout : Bool
  username : String
  password : String
  reconnectOk : Bool
  loginOk : Bool
deriving DecidableEq

/-- The first half of Contexter: resolve the cookie against the cache.
Returns isSigned, the local sessionInfo variable, the value passed to
c.Map (note: mapped before the lazy reconnect runs, so it still holds
the stored explorer field), and the state after any reconnect. -/
def phase1 (st : SrvState) (r : ReqM) :
    Bool × Option SessionInfo × Option SessionInfo × SrvState :=
  match r.cookieUid with
  | none => (false, none, none, st)
  | some u =>
    match cget st.cache u with
    | none => (false, none, none, st)
    | some si =>
      if si.User = "" ∨ si.Password = "" then (false, none, none, st)
      else
        match si.FileExplorer with
        | some _ => (true, some si, some si, st)
        | none =>
          if r.reconnectOk then
            (true, some { si with FileExplorer := some st.nextId }, some si,
             ⟨st.cache, st.nextId + 1, st.closed⟩)
          else (false, some si, some si, st)

/-- Model of one Contexter invocation: phase1, then the unsigned branch
(login POST, which connects and Puts a fresh record) or the signed
branch (logout, which Closes the local explorer and Deletes the cache
entry).  The second component is the SessionInfo value mapped into the
request, when any. -/
def contexterStep (st : SrvState) (r : ReqM) : SrvState × Option SessionInfo :=
  match phase1 st r with
  | (isSigned, localSession, mapped, st1) =>
    if isSigned then
      if r.isLogout then
        match localSession with
        | some ls =>
          match ls.FileExplorer with
          | some e =>
            (⟨cdel st1.cache (r.cookieUid.getD ""), st1.nextId, e :: st1.closed⟩, mapped)
          | none => (⟨cdel st1.cache (r.cookieUid.getD ""), st1.nextId, st1.closed⟩, mapped)
        | none => (st1, mapped)
      else (st1, mapped)
    else
      if r.isLoginPost then
        if r.loginOk then
          (⟨cput st1.cache r.username ⟨r.username, r.password, some st1.nextId, r.username⟩,
            st1.nextId + 1, st1.closed⟩,
           some ⟨r.username, r.password, some st1.nextId, r.username⟩)
        else (st1, mapped)
      else (st1, mapped)

/-- External events driving the binder: a request through Contexter, or
the cache expiring an entry on its own (TTL eviction, which runs no
repository code). -/
inductive Ev where
  | request (r : ReqM)
  | expire (k : String)

def evStep (st : SrvState) : Ev → SrvState
  | .request r => (contexterStep st r).1
  | .expire k => ⟨cdel st.cache k, st.nextId, st.closed⟩

def initState : SrvState := ⟨[], 0, []⟩

/-- The server state reached after a sequence of events from boot. -/
def run (evs : List Ev) : SrvState := evs.foldl evStep initState

/-! ## Trace lemmas for the bulk-operation loops -/

theorem osRemoveAll_trace (fs : FS) (p : String) :
    (osRemoveAll fs p).2.2 = [OsCall.oRemoveAll p] := by
  unfold osRemoveAll; split <;> rfl

theorem osChmod_trace (fs : FS) (p : String) (m : Nat) :
    (osChmod fs p m).2.2 = [OsCall.oChmod p] := by
  unfold osChmod
  split
  · rfl
  · split <;> rfl

theorem osRename_trace (fs : FS) (src dst : String) :
    (osRename fs src dst).2.2 = [OsCall.oRename src dst] := by
  unfold osRename
  split
  · rfl
  · split
    · split <;> rfl
    · split <;> rfl

theorem osMkdir_trace (fs : FS) (p : String) (m : Nat) :
    (osMkdir fs p m).2.2 = [OsCall.oMkdir p] := by
  unfold osMkdir
  split
  · rfl
  · split <;> rfl

theorem copyFile_trace_head (fs : FS) (src dst : String) :
    (CopyFile fs src dst).2.2.head? = some (OsCall.oOpen src) := by
  unfold CopyFile copyBody
  split
  · rfl
  · split
    · split
      · rfl
      · split <;> rfl
    · split
      · split <;> rfl
      · rfl

theorem delete_loop_trace (items : List String) :
    ∀ acc : FSRes Unit,
      (items.foldl deleteStep acc).2.2 = acc.2.2 ++ items.map OsCall.oRemoveAll := by
  induction items with
  | nil => intro acc; simp
  | cons t ts ih =>
    intro acc
    simp only [List.foldl_cons, List.map_cons]
    rw [ih]
    show (deleteStep acc t).2.2 ++ _ = _
    simp [deleteStep, osRemoveAll_trace]

theorem chmod_loop_trace (fe : LocalFileExplorer) (m : Nat) (items : List String) :
    ∀ acc : FSRes Unit,
      (items.foldl (chmodStep fe m) acc).2.2 =
        acc.2.2 ++ items.map (fun t => OsCall.oChmod (goJoin2 fe.RelativePath t)) := by
  induction items with
  | nil => intro acc; simp
  | cons t ts ih =>
    intro acc
    simp only [List.foldl_cons, List.map_cons]
    rw [ih]
    show (chmodStep fe m acc t).2.2 ++ _ = _
    simp [chmodStep, osChmod_trace]

theorem rename_trace (fe : LocalFileExplorer) (p q : String) (fs : FS) :
    (fe.Rename p q fs).2.2 =
      [OsCall.oRename (goJoin2 fe.RelativePath p) (goJoin2 fe.RelativePath q)] := by
  unfold LocalFileExplorer.Rename
  exact osRename_trace ..

theorem edit_trace (fe : LocalFileExplorer) (item content : String) (fs : FS) :
    (fe.Edit item content fs).2.2 = [OsCall.oCreate (goJoin2 fe.RelativePath item)] := by
  unfold LocalFileExplorer.Edit
  dsimp only
  split
  · split <;> rfl
  · split <;> rfl

theorem getContent_trace_head (fe : LocalFileExplorer) (item : String) (fs : FS) :
    (fe.GetContent item fs).2.2.head? = some (OsCall.oStat (goJoin2 fe.RelativePath item)) := by
  unfold LocalFileExplorer.GetContent
  dsimp only
  split
  · rfl
  · split <;> rfl

/-! ## Claims about the explorer operations -/

/-- C2: for every LocalFileExplorer with a non-empty RelativePath,
Delete hands each listed item to the OS remove call exactly as given,
without joining the RelativePath prefix, whereas Mkdir, Rename, Copy,
Chmod, GetContent and Edit resolve their path arguments under
RelativePath first. -/
theorem c2_delete_skips_relative_path (fe : LocalFileExplorer) (fs : FS)
    (hrel : fe.RelativePath ≠ "") :
    (∀ items, (fe.Delete items fs).2.2 = items.map OsCall.oRemoveAll)
    ∧ (∀ p, (fe.Mkdir p fs).2.2 = [OsCall.oMkdir (goJoin2 fe.RelativePath p)])
    ∧ (∀ p q, (fe.Rename p q fs).2.2 =
        [OsCall.oRename (goJoin2 fe.RelativePath p) (goJoin2 fe.RelativePath q)])
    ∧ (∀ t newPath single, (fe.Copy [t] newPath single fs).2.2.head? =
        some (OsCall.oOpen (goJoin2 fe.RelativePath t)))
    ∧ (∀ targets code i, goAtoi code = .ok i →
        (fe.Chmod targets code false fs).2.2 =
          targets.map (fun t => OsCall.oChmod (goJoin2 fe.RelativePath t)))
    ∧ (∀ item, (fe.GetContent item fs).2.2.head? =
        some (OsCall.oStat (goJoin2 fe.RelativePath item)))
    ∧ (∀ item content, (fe.Edit item content fs).2.2 =
        [OsCall.oCreate (goJoin2 fe.RelativePath item)]) := by
  refine ⟨fun items => ?_, fun p => ?_, fun p q => rename_trace fe p q fs,
    fun t newPath single => ?_, fun targets code i hcode => ?_,
    fun item => getContent_trace_head fe item fs, fun item content => edit_trace fe item content fs⟩
  · unfold LocalFileExplorer.Delete
    simpa using delete_loop_trace items (.ok (), fs, [])
  · unfold LocalFileExplorer.Mkdir
    exact osMkdir_trace ..
  · unfold LocalFileExplorer.Copy
    simp only [List.foldl_cons, List.foldl_nil]
    show ((copyStep fe newPath single (.ok (), fs, []) t).2.2).head? = _
    simp [copyStep, copyFile_trace_head]
  · unfold LocalFileExplorer.Chmod
    rw [hcode]
    simpa using chmod_loop_trace fe (toUint32 i) targets (.ok (), fs, [])

/-- C2 witness: on the explorer rooted at /base, deleting x removes the
path x verbatim while mkdir a creates /base/a. -/
theorem c2_delete_skips_relative_path_witness :
    ((LocalFileExplorer.mk "/base").Delete ["x"] ⟨[], []⟩).2.2 = [OsCall.oRemoveAll "x"]
    ∧ ((LocalFileExplorer.mk "/base").Mkdir "a" ⟨[], []⟩).2.2 = [OsCall.oMkdir "/base/a"] := by
  have h := c2_delete_skips_relative_path (LocalFileExplorer.mk "/base") ⟨[], []⟩ (by decide)
  exact ⟨by rw [h.1 ["x"]]; rfl, by rw [h.2.1 "a"]; rfl⟩

/-- C4 counterexample: delete on the two items missing and present
removes present but reports success, because os.RemoveAll of a missing
path is not an error; move on the two items missing and b reports
success even though renaming the first item fails, because the loop
overwrites the error variable on every iteration; and copy on the same
two items likewise reports success and copies the second item although
copying the first one fails. -/
theorem c4_bulk_failure_counterexample :
    ((LocalFileExplorer.mk "").Delete ["missing", "present"]
        ⟨[("present", ⟨false, 420, 3, "hi", ""⟩)], []⟩).1 = .ok ()
    ∧ ((LocalFileExplorer.mk "").Delete ["missing", "present"]
        ⟨[("present", ⟨false, 420, 3, "hi", ""⟩)], []⟩).2.1.nodes = []
    ∧ ((LocalFileExplorer.mk "/r").Move ["missing", "b"] "dest"
        ⟨[("/r", ⟨true, 448, 0, "", ""⟩), ("/r/b", ⟨false, 420, 1, "B", ""⟩)], []⟩).1 = .ok ()
    ∧ ((LocalFileExplorer.mk "/r").Rename "missing" "dest"
        ⟨[("/r", ⟨true, 448, 0, "", ""⟩), ("/r/b", ⟨false, 420, 1, "B", ""⟩)], []⟩).1
        = .error "no such file or directory"
    ∧ ((LocalFileExplorer.mk "/r").Copy ["missing", "b"] "d" "out"
        ⟨[("/r", ⟨true, 448, 0, "", ""⟩), ("/r/d", ⟨true, 448, 0, "", ""⟩),
          ("/r/b", ⟨false, 420, 1, "B", ""⟩)], []⟩).1 = .ok ()
    ∧ (CopyFile ⟨[("/r", ⟨true, 448, 0, "", ""⟩), ("/r/d", ⟨true, 448, 0, "", ""⟩),
          ("/r/b", ⟨false, 420, 1, "B", ""⟩)], []⟩ "/r/missing" "/r/d/out").1
        = .error "no such file or directory"
    ∧ (((LocalFileExplorer.mk "/r").Copy ["missing", "b"] "d" "out"
        ⟨[("/r", ⟨true, 448, 0, "", ""⟩), ("/r/d", ⟨true, 448, 0, "", ""⟩),
          ("/r/b", ⟨false, 420, 1, "B", ""⟩)], []⟩).2.1.find "/r/d/out")
        = some ⟨false, 438, 1, "B", ""⟩ :=
  ⟨rfl, rfl, rfl, rfl, rfl, rfl, rfl⟩

/-- C4 (amended): the bulk loops of Move, Copy and Delete process
every item of the sequence, but the returned result is solely that of
the last item processed, earlier failures being overwritten.  Delete's
trace covers every item; a trailing item of Move, Copy and Delete is
still renamed, copied or removed whatever happened to the earlier
items, and its result alone is what the call returns. -/
theorem c4_last_result_wins (fe : LocalFileExplorer) (fs : FS) :
    (∀ items, (fe.Delete items fs).2.2 = items.map OsCall.oRemoveAll)
    ∧ (∀ items t, (fe.Delete (items ++ [t]) fs).1 =
        (osRemoveAll (fe.Delete items fs).2.1 t).1)
    ∧ (∀ items t newPath, (fe.Move (items ++ [t]) newPath fs).1 =
        (fe.Rename t newPath (fe.Move items newPath fs).2.1).1)
    ∧ (∀ items t newPath, (fe.Move (items ++ [t]) newPath fs).2.2 =
        (fe.Move items newPath fs).2.2 ++
          (fe.Rename t newPath (fe.Move items newPath fs).2.1).2.2)
    ∧ (∀ items t newPath single, (fe.Copy (items ++ [t]) newPath single fs).1 =
        (CopyFile ((fe.Copy items newPath single fs).2.1) (goJoin2 fe.RelativePath t)
          (goJoin3 fe.RelativePath newPath single)).1)
    ∧ (∀ items t newPath single, (fe.Copy (items ++ [t]) newPath single fs).2.2 =
        (fe.Copy items newPath single fs).2.2 ++
          (CopyFile ((fe.Copy items newPath single fs).2.1) (goJoin2 fe.RelativePath t)
            (goJoin3 fe.RelativePath newPath single)).2.2) := by
  refine ⟨fun items => ?_, fun items t => ?_, fun items t newPath => ?_,
    fun items t newPath => ?_, fun items t newPath single => ?_,
    fun items t newPath single => ?_⟩
  · unfold LocalFileExplorer.Delete
    simpa using delete_loop_trace items (.ok (), fs, [])
  · unfold LocalFileExplorer.Delete
    rw [List.foldl_append]
    rfl
  · unfold LocalFileExplorer.Move
    rw [List.foldl_append]
    rfl
  · unfold LocalFileExplorer.Move
    rw [List.foldl_append]
    rfl
  · unfold LocalFileExplorer.Copy
    rw [List.foldl_append]
    rfl
  · unfold LocalFileExplorer.Copy
    rw [List.foldl_append]
    rfl

/-- C5: Chmod parses the mode code with strconv.Atoi, hence in base
ten: the code 755 yields the applied mode 755, which is not the
rwxr-xr-x bitmask 0o755 = 493 that an octal parse would give; the
fails-closed half of the claim does hold, a non-numeric code returning
a parse error and touching nothing. -/
theorem c5_chmod_parses_decimal :
    ((LocalFileExplorer.mk "/r").Chmod ["f"] "755" false
        ⟨[("/r", ⟨true, 448, 0, "", ""⟩), ("/r/f", ⟨false, 0, 0, "", ""⟩)], []⟩).1 = .ok ()
    ∧ (((LocalFileExplorer.mk "/r").Chmod ["f"] "755" false
        ⟨[("/r", ⟨true, 448, 0, "", ""⟩), ("/r/f", ⟨false, 0, 0, "", ""⟩)], []⟩).2.1.find "/r/f")
        = some ⟨false, 755, 0, "", ""⟩
    ∧ (755 : Nat) ≠ 0o755
    ∧ ((LocalFileExplorer.mk "/r").Chmod ["f"] "zzz" false
        ⟨[("/r", ⟨true, 448, 0, "", ""⟩), ("/r/f", ⟨false, 0, 0, "", ""⟩)], []⟩)
        = (.error "invalid syntax",
           ⟨[("/r", ⟨true, 448, 0, "", ""⟩), ("/r/f", ⟨false, 0, 0, "", ""⟩)], []⟩, []) :=
  ⟨rfl, rfl, by decide, rfl⟩

/-- C6: Move renames each item onto the destination path itself rather
than into the destination directory: with the destination absent the
call reports success, yet no item ends up as a child of the
destination, the last item sits at the destination path and the earlier
item is destroyed; and with the destination an existing directory the
rename fails outright. -/
theorem c6_move_renames_onto_destination :
    ((LocalFileExplorer.mk "/r").Move ["a", "b"] "dest"
        ⟨[("/r", ⟨true, 448, 0, "", ""⟩), ("/r/a", ⟨false, 420, 1, "A", ""⟩),
          ("/r/b", ⟨false, 420, 1, "B", ""⟩)], []⟩).1 = .ok ()
    ∧ (((LocalFileExplorer.mk "/r").Move ["a", "b"] "dest"
        ⟨[("/r", ⟨true, 448, 0, "", ""⟩), ("/r/a", ⟨false, 420, 1, "A", ""⟩),
          ("/r/b", ⟨false, 420, 1, "B", ""⟩)], []⟩).2.1.find "/r/dest/a") = none
    ∧ (((LocalFileExplorer.mk "/r").Move ["a", "b"] "dest"
        ⟨[("/r", ⟨true, 448, 0, "", ""⟩), ("/r/a", ⟨false, 420, 1, "A", ""⟩),
          ("/r/b", ⟨false, 420, 1, "B", ""⟩)], []⟩).2.1.find "/r/dest/b") = none
    ∧ (((LocalFileExplorer.mk "/r").Move ["a", "b"] "dest"
        ⟨[("/r", ⟨true, 448, 0, "", ""⟩), ("/r/a", ⟨false, 420, 1, "A", ""⟩),
          ("/r/b", ⟨false, 420, 1, "B", ""⟩)], []⟩).2.1.find "/r/dest")
        = some ⟨false, 420, 1, "B", ""⟩
    ∧ (((LocalFileExplorer.mk "/r").Move ["a", "b"] "dest"
        ⟨[("/r", ⟨true, 448, 0, "", ""⟩), ("/r/a", ⟨false, 420, 1, "A", ""⟩),
          ("/r/b", ⟨false, 420, 1, "B", ""⟩)], []⟩).2.1.find "/r/a") = none
    ∧ ((LocalFileExplorer.mk "/r").Move ["a"] "dest"
        ⟨[("/r", ⟨true, 448, 0, "", ""⟩), ("/r/a", ⟨false, 420, 1, "A", ""⟩),
          ("/r/dest", ⟨true, 448, 0, "", ""⟩)], []⟩).1 = .error "file exists" :=
  ⟨rfl, rfl, rfl, rfl, rfl, rfl⟩

/-- C8: in the recursive branch Chmod discards the return value of
filepath.Walk, so although chmodding the descendant /r/d/f fails with a
permission error that aborts the walk, Chmod still returns ok and the
descendant keeps its old mode: the capability-level error is swallowed
and never reaches the dispatcher. -/
theorem c8_recursive_chmod_swallows_error :
    ((LocalFileExplorer.mk "/r").Chmod ["d"] "0" true
        ⟨[("/r", ⟨true, 448, 0, "", ""⟩), ("/r/d", ⟨true, 448, 0, "", ""⟩),
          ("/r/d/f", ⟨false, 448, 0, "", ""⟩)], ["/r/d/f"]⟩).1 = .ok ()
    ∧ (((LocalFileExplorer.mk "/r").Chmod ["d"] "0" true
        ⟨[("/r", ⟨true, 448, 0, "", ""⟩), ("/r/d", ⟨true, 448, 0, "", ""⟩),
          ("/r/d/f", ⟨false, 448, 0, "", ""⟩)], ["/r/d/f"]⟩).2.1.find "/r/d/f")
        = some ⟨false, 448, 0, "", ""⟩
    ∧ (walkGo 4
        ⟨[("/r", ⟨true, 448, 0, "", ""⟩), ("/r/d", ⟨true, 448, 0, "", ""⟩),
          ("/r/d/f", ⟨false, 448, 0, "", ""⟩)], ["/r/d/f"]⟩ ["/r/d"] 0).2.1
        = some "operation not permitted" :=
  ⟨rfl, rfl, rfl⟩

/-- C9: for an item whose joined path exists, GetContent fails with the
too-big error exactly when the stat size exceeds 1 MiB, and succeeds
with the scanned content otherwise. -/
theorem c9_size_guard (fe : LocalFileExplorer) (item : String) (fs : FS) (n : FNode)
    (h : fs.find (goJoin2 fe.RelativePath item) = some n) :
    ((fe.GetContent item fs).1 = .error "file too big, not support getContent"
      ↔ n.size > 1024 * 1024)
    ∧ (n.size ≤ 1024 * 1024 → (fe.GetContent item fs).1 = .ok (scanJoin n.content)) := by
  unfold LocalFileExplorer.GetContent
  dsimp only
  rw [h]
  dsimp only
  by_cases hs : n.size > 1024 * 1024
  · rw [if_pos hs]
    refine ⟨Iff.intro (fun _ => hs) (fun _ => rfl), fun hle => absurd hs (not_lt.mpr hle)⟩
  · rw [if_neg hs]
    refine ⟨Iff.intro (fun he => ?_) (fun hgt => absurd hgt hs), fun _ => rfl⟩
    cases he

/-- C9 witness: on a file of exactly 1 MiB plus one byte GetContent
fails with the too-big error, and on exactly 1 MiB it succeeds. -/
theorem c9_size_guard_witness :
    ((LocalFileExplorer.mk "/r").GetContent "big"
        ⟨[("/r/big", ⟨false, 420, 1048577, "", ""⟩), ("/r/ok", ⟨false, 420, 1048576, "", ""⟩)],
         []⟩).1 = .error "file too big, not support getContent"
    ∧ ((LocalFileExplorer.mk "/r").GetContent "ok"
        ⟨[("/r/big", ⟨false, 420, 1048577, "", ""⟩), ("/r/ok", ⟨false, 420, 1048576, "", ""⟩)],
         []⟩).1 = .ok "" :=
  ⟨(c9_size_guard (LocalFileExplorer.mk "/r") "big"
      ⟨[("/r/big", ⟨false, 420, 1048577, "", ""⟩), ("/r/ok", ⟨false, 420, 1048576, "", ""⟩)], []⟩
      ⟨false, 420, 1048577, "", ""⟩ rfl).1.mpr (by norm_num),
   (c9_size_guard (LocalFileExplorer.mk "/r") "ok"
      ⟨[("/r/big", ⟨false, 420, 1048577, "", ""⟩), ("/r/ok", ⟨false, 420, 1048576, "", ""⟩)], []⟩
      ⟨false, 420, 1048576, "", ""⟩ rfl).2 (by norm_num)⟩

/-- C7 counterexample: the action string download is recognized by no
branch of the if chain, so the handler writes no response envelope at
all instead of the fixed Not Supported failure envelope. -/
theorem c7_unrecognized_counterexample :
    apiHandler ⟨"download", "", "", "", [], "", "", "", false⟩ (LocalFileExplorer.mk "/r")
      ⟨[], []⟩ = (none, ⟨[], []⟩, [])
    ∧ (apiHandler ⟨"download", "", "", "", [], "", "", "", false⟩ (LocalFileExplorer.mk "/r")
      ⟨[], []⟩).1 ≠ some DEFAULT_API_ERROR_RESPONSE :=
  ⟨rfl, fun h => Option.noConfusion h⟩

/-- C7 (amended): each of the seven implemented actions yields exactly
one response envelope; the four recognized-but-unimplemented actions
yield the fixed Not Supported failure envelope with no capability call
performed; and any other action string yields no response envelope at
all and performs no capability call. -/
theorem c7_dispatch_totality (req : GenericReq) (s : LocalFileExplorer) (fs : FS) :
    (req.Action ∈ ["list", "rename", "move", "copy", "remove", "createFolder",
        "changePermissions"] → ((apiHandler req s fs).1).isSome = true)
    ∧ (req.Action ∈ ["savefile", "edit", "compress", "extract"] →
        apiHandler req s fs = (some DEFAULT_API_ERROR_RESPONSE, fs, []))
    ∧ (req.Action ∉ ["list", "rename", "move", "copy", "remove", "savefile", "edit",
        "createFolder", "changePermissions", "compress", "extract"] →
        apiHandler req s fs = (none, fs, [])) := by
  refine ⟨fun h => ?_, fun h => ?_, fun h => ?_⟩
  · simp only [List.mem_cons, List.not_mem_nil, or_false] at h
    rcases h with h | h | h | h | h | h | h <;>
      · unfold apiHandler
        rw [h]
        repeat rw [if_neg (by decide)]
        rw [if_pos rfl]
        split <;> rfl
  · simp only [List.mem_cons, List.not_mem_nil, or_false] at h
    rcases h with h | h | h | h <;>
      · unfold apiHandler
        rw [h]
        repeat rw [if_neg (by decide)]
        rw [if_pos rfl]
  · simp only [List.mem_cons, List.not_mem_nil, or_false, not_or] at h
    obtain ⟨h1, h2, h3, h4, h5, h6, h7, h8, h9, h10, h11⟩ := h
    simp only [apiHandler, h1, h2, h3, h4, h5, h6, h7, h8, h9, h10, h11, if_false]

/-- C7 witness: dispatching compress returns the fixed Not Supported
envelope, leaves the filesystem untouched and performs no OS call. -/
theorem c7_dispatch_totality_witness :
    apiHandler ⟨"compress", "", "", "", [], "", "", "", false⟩ (LocalFileExplorer.mk "/r")
      ⟨[], []⟩ = (some DEFAULT_API_ERROR_RESPONSE, ⟨[], []⟩, []) :=
  (c7_dispatch_totality ⟨"compress", "", "", "", [], "", "", "", false⟩
    (LocalFileExplorer.mk "/r") ⟨[], []⟩).2.1 (by simp)

/-! ## Cache lemmas and the explorer-uniqueness invariant -/

theorem cget_cdel (c : List (String × SessionInfo)) (k k' : String) :
    cget (cdel c k) k' = if k' = k then none else cget c k' := by
  induction c with
  | nil => by_cases hk : k' = k <;> simp [cdel, cget, hk]
  | cons e rest ih =>
    obtain ⟨a, v⟩ := e
    by_cases hak : a = k
    · rw [show cdel ((a, v) :: rest) k = cdel rest k by simp [cdel, hak], ih]
      by_cases hk : k' = k
      · simp [hk]
      · have hak' : ¬ (a = k') := fun e => hk (e ▸ hak)
        simp [hk, cget, hak']
    · rw [show cdel ((a, v) :: rest) k = (a, v) :: cdel rest k by simp [cdel, hak]]
      by_cases hak' : a = k'
      · have hk : ¬ (k' = k) := fun e => hak (hak'.trans e)
        simp [cget, hak', hk]
      · simp [cget, hak', ih]

theorem cget_cput (c : List (String × SessionInfo)) (k : String) (v : SessionInfo)
    (k' : String) : cget (cput c k v) k' = if k' = k then some v else cget c k' := by
  unfold cput
  by_cases hk : k' = k
  · simp [cget, hk]
  · have hk2 : ¬ (k = k') := fun e => hk e.symm
    simp [cget, hk2, hk, cget_cdel]

/-- Explorer identities stored in the cache are below the allocator. -/
def ExBound (st : SrvState) : Prop :=
  ∀ k s e, cget st.cache k = some s → s.FileExplorer = some e → e < st.nextId

/-- Distinct cache entries hold distinct explorer identities. -/
def ExUniq (st : SrvState) : Prop :=
  ∀ k1 k2 s1 s2 e1 e2, k1 ≠ k2 → cget st.cache k1 = some s1 →
    cget st.cache k2 = some s2 → s1.FileExplorer = some e1 → s2.FileExplorer = some e2 →
    e1 ≠ e2

def StInv (st : SrvState) : Prop := ExBound st ∧ ExUniq st

theorem stinv_mono (c : List (String × SessionInfo)) (n n' : Nat) (cl cl' : List Nat)
    (hn : n ≤ n') : StInv ⟨c, n, cl⟩ → StInv ⟨c, n', cl'⟩ := by
  rintro ⟨hb, hu⟩
  exact ⟨fun k s e hg he => lt_of_lt_of_le (hb k s e hg he) hn, hu⟩

theorem stinv_del (c : List (String × SessionInfo)) (n n' : Nat) (cl cl' : List Nat)
    (k : String) (hn : n ≤ n') : StInv ⟨c, n, cl⟩ → StInv ⟨cdel c k, n', cl'⟩ := by
  rintro ⟨hb, hu⟩
  constructor
  · intro k' s e hg he
    rw [cget_cdel] at hg
    split at hg
    · simp at hg
    · exact lt_of_lt_of_le (hb k' s e hg he) hn
  · intro k1 k2 s1 s2 e1 e2 hne h1 h2 he1 he2
    rw [cget_cdel] at h1 h2
    split at h1
    · simp at h1
    · split at h2
      · simp at h2
      · exact hu k1 k2 s1 s2 e1 e2 hne h1 h2 he1 he2

theorem stinv_put_fresh (c : List (String × SessionInfo)) (n : Nat) (cl cl' : List Nat)
    (u up pw uidv : String) :
    StInv ⟨c, n, cl⟩ → StInv ⟨cput c u ⟨up, pw, some n, uidv⟩, n + 1, cl'⟩ := by
  rintro ⟨hb, hu⟩
  constructor
  · intro k s e hg he
    rw [cget_cput] at hg
    split at hg
    · cases hg
      cases he
      exact Nat.lt_succ_self n
    · exact Nat.lt_succ_of_lt (hb k s e hg he)
  · intro k1 k2 s1 s2 e1 e2 hne h1 h2 he1 he2
    rw [cget_cput] at h1 h2
    split at h1
    · rename_i hk1
      cases h1
      cases he1
      split at h2
      · rename_i hk2
        exact absurd (hk1.trans hk2.symm) hne
      · have hlt := hb k2 s2 e2 h2 he2
        dsimp only at hlt
        omega
    · rename_i hk1
      split at h2
      · rename_i hk2
        cases h2
        cases he2
        have hlt := hb k1 s1 e1 h1 he1
        dsimp only at hlt
        omega
      · exact hu k1 k2 s1 s2 e1 e2 hne h1 h2 he1 he2

theorem phase1_state (st : SrvState) (r : ReqM) :
    (phase1 st r).2.2.2 = st ∨ (phase1 st r).2.2.2 = ⟨st.cache, st.nextId + 1, st.closed⟩ := by
  unfold phase1
  split
  · exact Or.inl rfl
  · split
    · exact Or.inl rfl
    · split
      · exact Or.inl rfl
      · split
        · exact Or.inl rfl
        · split
          · exact Or.inr rfl
          · exact Or.inl rfl

theorem stinv_contexter (st : SrvState) (r : ReqM) (h : StInv st) :
    StInv (contexterStep st r).1 := by
  have hst1 : StInv (phase1 st r).2.2.2 := by
    rcases phase1_state st r with hp | hp <;> rw [hp]
    · exact h
    · exact stinv_mono st.cache st.nextId (st.nextId + 1) st.closed st.closed
        (Nat.le_succ _) h
  unfold contexterStep
  rcases hp : phase1 st r with ⟨sg, ls, mp, st1⟩
  rw [hp] at hst1
  dsimp only at hst1 ⊢
  split
  · split
    · split
      · split
        · exact stinv_del st1.cache st1.nextId st1.nextId st1.closed _ _ le_rfl hst1
        · exact stinv_del st1.cache st1.nextId st1.nextId st1.closed _ _ le_rfl hst1
      · exact hst1
    · exact hst1
  · split
    · split
      · exact stinv_put_fresh st1.cache st1.nextId st1.closed _ _ _ _ _ hst1
      · exact hst1
    · exact hst1

theorem stinv_evStep (st : SrvState) (e : Ev) (h : StInv st) : StInv (evStep st e) := by
  cases e with
  | request r => exact stinv_contexter st r h
  | expire k => exact stinv_del st.cache st.nextId st.nextId st.closed st.closed k le_rfl h

theorem stinv_foldl (evs : List Ev) : ∀ st, StInv st → StInv (evs.foldl evStep st) := by
  induction evs with
  | nil => intro st h; exact h
  | cons e es ih => intro st h; exact ih _ (stinv_evStep st e h)

theorem stinv_init : StInv initState := by
  constructor
  · intro k s e hg _
    simp [initState, cget] at hg
  · intro k1 k2 s1 s2 e1 e2 _ h1 _ _ _
    simp [initState, cget] at h1

theorem stinv_run (evs : List Ev) : StInv (run evs) :=
  stinv_foldl evs initState stinv_init

/-- C1: no two sessions present in the connection cache at the same
time hold the same FileExplorer instance: for any event history, two
cache entries under distinct keys with bound explorers hold distinct
explorer identities.  Same-username sessions share the cache key, so
they can never coexist as two entries at all. -/
theorem c1_no_shared_explorer (evs : List Ev) (k1 k2 : String) (s1 s2 : SessionInfo)
    (e1 e2 : Nat) (hk : k1 ≠ k2)
    (h1 : cget (run evs).cache k1 = some s1) (h2 : cget (run evs).cache k2 = some s2)
    (he1 : s1.FileExplorer = some e1) (he2 : s2.FileExplorer = some e2) : e1 ≠ e2 :=
  (stinv_run evs).2 k1 k2 s1 s2 e1 e2 hk h1 h2 he1 he2

/-- C1 witness: after two logins under distinct usernames the two cache
entries hold the distinct explorer identities 0 and 1. -/
theorem c1_no_shared_explorer_witness :
    cget (run [Ev.request ⟨none, true, false, "u1", "p", false, true⟩,
               Ev.request ⟨none, true, false, "u2", "p", false, true⟩]).cache "u1"
      = some ⟨"u1", "p", some 0, "u1"⟩
    ∧ cget (run [Ev.request ⟨none, true, false, "u1", "p", false, true⟩,
               Ev.request ⟨none, true, false, "u2", "p", false, true⟩]).cache "u2"
      = some ⟨"u2", "p", some 1, "u2"⟩
    ∧ (0 : Nat) ≠ 1 :=
  ⟨rfl, rfl,
   c1_no_shared_explorer
     [Ev.request ⟨none, true, false, "u1", "p", false, true⟩,
      Ev.request ⟨none, true, false, "u2", "p", false, true⟩]
     "u1" "u2" ⟨"u1", "p", some 0, "u1"⟩ ⟨"u2", "p", some 1, "u2"⟩ 0 1
     (by decide) rfl rfl rfl rfl⟩

/-- C3 counterexample: a second login under the same username
overwrites the cache entry bound to explorer 0 without closing it, and
cache expiry of a bound entry removes it without closing its explorer:
in both final states the discarded explorer 0 is absent from the cache
and from the closed set. -/
theorem c3_discard_without_close_counterexample :
    run [Ev.request ⟨none, true, false, "u", "p", false, true⟩]
      = ⟨[("u", ⟨"u", "p", some 0, "u"⟩)], 1, []⟩
    ∧ run [Ev.request ⟨none, true, false, "u", "p", false, true⟩,
           Ev.request ⟨none, true, false, "u", "p", false, true⟩]
      = ⟨[("u", ⟨"u", "p", some 1, "u"⟩)], 2, []⟩
    ∧ evStep ⟨[("u", ⟨"u", "p", some 0, "u"⟩)], 1, []⟩ (Ev.expire "u") = ⟨[], 1, []⟩ :=
  ⟨rfl, rfl, rfl⟩

/-- C3 (amended): Close is invoked only on the explicit-logout exit
path: a logout request closes the explorer bound to the request before
the cache entry is deleted; cache-entry expiry and the overwrite of an
existing entry at re-login discard the record without closing. -/
theorem c3_logout_closes (st : SrvState) (u : String) (si : SessionInfo) (e : Nat) (r : ReqM)
    (hc : r.cookieUid = some u) (hlo : r.isLogout = true)
    (hget : cget st.cache u = some si) (hu : si.User ≠ "") (hp : si.Password ≠ "")
    (he : si.FileExplorer = some e) :
    e ∈ (evStep st (.request r)).closed ∧ cget (evStep st (.request r)).cache u = none := by
  have hstep : contexterStep st r
      = (⟨cdel st.cache u, st.nextId, e :: st.closed⟩, some si) := by
    simp [contexterStep, phase1, hc, hget, he, hlo, hu, hp]
  have hbranch : evStep st (.request r)
      = ⟨cdel st.cache u, st.nextId, e :: st.closed⟩ := by
    show (contexterStep st r).1 = _
    rw [hstep]
  rw [hbranch]
  refine ⟨List.mem_cons_self e st.closed, ?_⟩
  rw [cget_cdel, if_pos rfl]

/-- C3 witness: logging out of a session bound to explorer 7 closes it
and evicts the entry. -/
theorem c3_logout_closes_witness :
    (7 : Nat) ∈ (evStep ⟨[("u", ⟨"u", "p", some 7, "u"⟩)], 8, []⟩
      (.request ⟨some "u", false, true, "", "", false, false⟩)).closed
    ∧ cget (evStep ⟨[("u", ⟨"u", "p", some 7, "u"⟩)], 8, []⟩
      (.request ⟨some "u", false, true, "", "", false, false⟩)).cache "u" = none :=
  c3_logout_closes ⟨[("u", ⟨"u", "p", some 7, "u"⟩)], 8, []⟩ "u" ⟨"u", "p", some 7, "u"⟩ 7
    ⟨some "u", false, true, "", "", false, false⟩ rfl rfl rfl (by decide) (by decide) rfl

/-- C10 counterexample: on a request hitting a cached session with an
absent explorer, a successful lazy reconnect allocates explorer 5 (the
allocator moves from 5 to 6), yet the SessionInfo mapped into the
request still carries an absent explorer, because c.Map runs before the
reconnect; the cache entry is unchanged as the claim says. -/
theorem c10_reconnect_not_mapped_counterexample :
    contexterStep ⟨[("u", ⟨"u", "p", none, "u"⟩)], 5, []⟩
        ⟨some "u", false, false, "", "", true, false⟩
      = (⟨[("u", ⟨"u", "p", none, "u"⟩)], 6, []⟩, some ⟨"u", "p", none, "u"⟩) :=
  rfl

/-- C10 (amended): when a request finds a cached session whose explorer
field is absent and the lazy reconnect succeeds, the freshly connected
explorer is assigned only to a local variable after the session value
was already mapped, so the value mapped into the request still has an
absent explorer field, the cache is not updated, and the allocator
advance is the only remaining effect of the connect. -/
theorem c10_reconnect_invisible (st : SrvState) (u : String) (si : SessionInfo) (r : ReqM)
    (hc : r.cookieUid = some u) (hnl : r.isLoginPost = false) (hno : r.isLogout = false)
    (hget : cget st.cache u = some si) (hu : si.User ≠ "") (hp : si.Password ≠ "")
    (he : si.FileExplorer = none) (hro : r.reconnectOk = true) :
    (contexterStep st r).2 = some si
    ∧ (contexterStep st r).1.cache = st.cache
    ∧ (contexterStep st r).1.nextId = st.nextId + 1 := by
  have hbranch : contexterStep st r
      = (⟨st.cache, st.nextId + 1, st.closed⟩, some si) := by
    simp [contexterStep, phase1, hc, hget, he, hro, hno, hu, hp]
  rw [hbranch]
  exact ⟨rfl, rfl, rfl⟩

/-- C10 witness: the amended statement at the concrete state used in
the counterexample. -/
theorem c10_reconnect_invisible_witness :
    (contexterStep ⟨[("u", ⟨"u", "p", none, "u"⟩)], 5, []⟩
        ⟨some "u", false, false, "", "", true, false⟩).2 = some ⟨"u", "p", none, "u"⟩
    ∧ (contexterStep ⟨[("u", ⟨"u", "p", none, "u"⟩)], 5, []⟩
        ⟨some "u", false, false, "", "", true, false⟩).1.cache
        = [("u", ⟨"u", "p", none, "u"⟩)]
    ∧ (contexterStep ⟨[("u", ⟨"u", "p", none, "u"⟩)], 5, []⟩
        ⟨some "u", false, false, "", "", true, false⟩).1.nextId = 5 + 1 :=
  c10_reconnect_invisible ⟨[("u", ⟨"u", "p", none, "u"⟩)], 5, []⟩ "u" ⟨"u", "p", none, "u"⟩
    ⟨some "u", false, false, "", "", true, false⟩ rfl rfl rfl rfl (by decide) (by decide)
    rfl rfl

end Gofe
